import Mathlib

/-!
Shallow embedding of the free-slot search and booking core of
gc_booker.py (functions get_free_slots, extract_jira_key, book_meeting).

Conventions of the embedding:
* Timestamps are naive local minutes (Int) in the calendar's single
  timezone; minute 0 is 00:00 of an epoch day that is a Monday, so the
  weekday of a day index d is d % 7 with Monday = 0, matching Python's
  datetime.weekday(). The UTC-to-local conversion the script performs on
  the freebusy response is absorbed into the parsed minute values
  (a fixed-offset timezone).
* The freebusy HTTP response for a day is modelled as an association list
  from attendee email to its list of raw busy entries; each raw timestamp
  either parses to a minute value (Stamp.iso) or is malformed
  (Stamp.malformed), in which case datetime.fromisoformat raises
  ValueError; a missing email key raises KeyError. Both Python exceptions
  are modelled with Except.error, and they propagate: get_free_slots has
  no try/except.
* Both while loops advance by a fixed amount per iteration, so they are
  embedded with explicit fuel: the slot loop's fuel (dayEnd - cur).toNat
  dominates its iteration count (cur grows by 30 each pass), making the
  wrapper genSlots exact; the outer day loop of get_free_slots has no
  bound in the source, so searchLoop reports fuelOut when the given
  iteration budget ends with the loop still running.
* datetime.datetime.now is treated as a constant during the run
  (Config.now); the CLI guarantees at least one attendee email, and the
  first email is taken with headD.
-/

/-- A raw busy-interval timestamp from the upstream response: either it
parses to a local minute value or datetime.fromisoformat rejects it. -/
inductive Stamp where
  | iso (t : Int)
  | malformed
deriving DecidableEq

/-- Python exceptions that can escape the evaluation of one day: ValueError
from parsing a busy timestamp, KeyError from a missing attendee entry in
the calendars map of the freebusy response. -/
inductive CalError where
  | malformedStamp
  | missingAttendee (email : String)
deriving DecidableEq

/-- Parse one raw timestamp (datetime.fromisoformat plus timezone
conversion); a malformed one raises ValueError. -/
def parseStamp : Stamp → Except CalError Int
  | Stamp.iso t => Except.ok t
  | Stamp.malformed => Except.error CalError.malformedStamp

/-- Parse the start and then the end timestamp of one busy entry, in the
order the script evaluates them. -/
def parseEntry (e : Stamp × Stamp) : Except CalError (Int × Int) :=
  match parseStamp e.1 with
  | Except.error er => Except.error er
  | Except.ok s =>
    match parseStamp e.2 with
    | Except.error er => Except.error er
    | Except.ok t => Except.ok (s, t)

/-- Total meeting time of a busy list in minutes: the loop at lines
108-112 summing end - start over the first attendee's busy entries,
stopping at the first malformed timestamp as the ValueError would. -/
def totalBusyTime : List (Stamp × Stamp) → Except CalError Int
  | [] => Except.ok 0
  | e :: rest =>
    match parseEntry e with
    | Except.error er => Except.error er
    | Except.ok st =>
      match totalBusyTime rest with
      | Except.error er => Except.error er
      | Except.ok total => Except.ok (st.2 - st.1 + total)

/-- Look one attendee up in the calendars map of the freebusy response;
a missing key raises KeyError as in events_result['calendars'][email]. -/
def getCalendarBusy (cals : List (String × List (Stamp × Stamp)))
    (email : String) : Except CalError (List (Stamp × Stamp)) :=
  match cals.lookup email with
  | some b => Except.ok b
  | none => Except.error (CalError.missingAttendee email)

/-- The combine loop at lines 119-122: concatenate every attendee's busy
entries in email order. -/
def collectBusy (cals : List (String × List (Stamp × Stamp))) :
    List String → Except CalError (List (Stamp × Stamp))
  | [] => Except.ok []
  | e :: rest =>
    match getCalendarBusy cals e with
    | Except.error er => Except.error er
    | Except.ok b =>
      match collectBusy cals rest with
      | Except.error er => Except.error er
      | Except.ok r => Except.ok (b ++ r)

/-- The comprehension at lines 125-131: parse every combined busy entry to
a pair of local minutes, raising ValueError at the first malformed one. -/
def parseAll : List (Stamp × Stamp) → Except CalError (List (Int × Int))
  | [] => Except.ok []
  | e :: rest =>
    match parseEntry e with
    | Except.error er => Except.error er
    | Except.ok iv =>
      match parseAll rest with
      | Except.error er => Except.error er
      | Except.ok ivs => Except.ok (iv :: ivs)

/-- Hour field of a timestamp, as datetime.hour reads it: minutes within
the day divided by 60. -/
def hourOf (t : Int) : Int := t % 1440 / 60

/-- Half-open interval overlap, the formula at line 151:
slot_start < busy_end and slot_end > busy_start. -/
def overlaps (a b : Int × Int) : Prop := a.1 < b.2 ∧ b.1 < a.2

instance (a b : Int × Int) : Decidable (overlaps a b) :=
  decidable_of_iff (a.1 < b.2 ∧ b.1 < a.2) Iff.rfl

/-- The slot while loop at lines 133-158, with explicit fuel: while
cur + 30 <= end_of_day, examine the 30-minute slot at cur, skip it when
its hours satisfy the lunch rule, skip it when it starts before now,
append it when it overlaps no busy interval, and advance cur by 30. -/
def genSlotsAux (busy : List (Int × Int)) (now dayEnd : Int) :
    Nat → Int → List (Int × Int)
  | 0, _ => []
  | fuel + 1, cur =>
    if cur + 30 ≤ dayEnd then
      if 11 ≤ hourOf cur ∧ hourOf (cur + 30) < 13 then
        genSlotsAux busy now dayEnd fuel (cur + 30)
      else if cur < now then
        genSlotsAux busy now dayEnd fuel (cur + 30)
      else if ∀ b ∈ busy, ¬ overlaps (cur, cur + 30) b then
        (cur, cur + 30) :: genSlotsAux busy now dayEnd fuel (cur + 30)
      else
        genSlotsAux busy now dayEnd fuel (cur + 30)
    else []

/-- The slot loop from its entry point: (dayEnd - cur).toNat fuel
dominates the iteration count because cur advances by 30 each pass, so
this wrapper computes the loop exactly. -/
def genSlots (busy : List (Int × Int)) (now dayEnd cur : Int) :
    List (Int × Int) :=
  genSlotsAux busy now dayEnd (dayEnd - cur).toNat cur

/-- The weekdays list of line 80: Monday to Friday as Python weekday
numbers. -/
def weekdaysList : List Int := [0, 1, 2, 3, 4]

/-- Inputs of get_free_slots: the attendee emails, the freebusy response
for each queried day (indexed by absolute day number), the fixed value of
datetime.now in local minutes, and min_slots. -/
structure Config where
  emails : List String
  busyOf : Int → List (String × List (Stamp × Stamp))
  now : Int
  minSlots : Nat

/-- One admitted-day evaluation, lines 93-158: fetch the day's freebusy
calendars, sum the first attendee's busy time and reject the day (zero
slots) when it exceeds 5 hours, otherwise combine and parse all
attendees' busy entries and run the slot loop over 09:00-17:00. -/
def processDay (cfg : Config) (day : Int) :
    Except CalError (List (Int × Int)) :=
  let cals := cfg.busyOf day
  match getCalendarBusy cals (cfg.emails.headD "") with
  | Except.error e => Except.error e
  | Except.ok firstBusy =>
    match totalBusyTime firstBusy with
    | Except.error e => Except.error e
    | Except.ok total =>
      if 300 < total then Except.ok []
      else
        match collectBusy cals cfg.emails with
        | Except.error e => Except.error e
        | Except.ok entries =>
          match parseAll entries with
          | Except.error e => Except.error e
          | Except.ok busy =>
            Except.ok (genSlots busy cfg.now (day * 1440 + 1020)
              (day * 1440 + 540))

/-- Outcome of running the day loop for a given iteration budget: the
returned free_slots list, the budget ran out with the loop still
searching, or a Python exception escaped get_free_slots. -/
inductive SearchOutcome where
  | found (slots : List (Int × Int))
  | fuelOut
  | failed (e : CalError)
deriving DecidableEq

/-- Result of the day loop plus the ghost list of the day indices for
which a freebusy query was issued (instrumentation only; it influences
nothing). -/
structure LoopResult where
  outcome : SearchOutcome
  queried : List Int
deriving DecidableEq

/-- The day while loop at lines 86-162 with explicit fuel: while
len(free_slots) < min_slots, look at today + day_offset, skip weekends
without querying, otherwise query and evaluate the day, append its free
slots, and advance day_offset; on exit return free_slots[:min_slots]. -/
def searchLoop (cfg : Config) :
    Nat → Nat → List (Int × Int) → List Int → LoopResult
  | 0, _, acc, queried =>
    if acc.length < cfg.minSlots then ⟨SearchOutcome.fuelOut, queried⟩
    else ⟨SearchOutcome.found (acc.take cfg.minSlots), queried⟩
  | fuel + 1, dayOff, acc, queried =>
    if acc.length < cfg.minSlots then
      let day : Int := cfg.now / 1440 + dayOff
      if day % 7 ∈ weekdaysList then
        match processDay cfg day with
        | Except.error e => ⟨SearchOutcome.failed e, queried ++ [day]⟩
        | Except.ok slots =>
          searchLoop cfg fuel (dayOff + 1) (acc ++ slots) (queried ++ [day])
      else searchLoop cfg fuel (dayOff + 1) acc queried
    else ⟨SearchOutcome.found (acc.take cfg.minSlots), queried⟩

/-- get_free_slots from its entry point: day_offset 0, empty accumulator,
run with the given iteration budget. -/
def getFreeSlots (cfg : Config) (fuel : Nat) : LoopResult :=
  searchLoop cfg fuel 0 [] []

/-- extract_jira_key on the character list of the meeting name: the
anchored pattern of one or more ASCII uppercase letters, a hyphen, one or
more ASCII digits, both runs taken greedily as the regex does. -/
def extractJiraKey (name : List Char) : Option (List Char) :=
  let letters := name.takeWhile Char.isUpper
  match letters with
  | [] => none
  | _ :: _ =>
    match name.drop letters.length with
    | '-' :: rest =>
      let digits := rest.takeWhile Char.isDigit
      if digits.isEmpty then none else some (letters ++ '-' :: digits)
    | _ => none

/-- extract_jira_key on strings. -/
def extractJiraKeyS (name : String) : Option String :=
  (extractJiraKey name.toList).map List.asString

/-- The title and description resolution of book_meeting, lines 174-183:
the description starts as Meeting: name; when a Jira key prefix exists and
the ticket lookup yields a summary, the title becomes KEY - summary and
the description is prefixed with the browse deep link; when the lookup
yields nothing (get_jira_ticket_title returned None) the original title
and description are kept and booking proceeds. -/
def resolveBooking (lookupTitle : String → Option String)
    (meetingName : String) : String × String :=
  let description := "Meeting: " ++ meetingName
  match extractJiraKeyS meetingName with
  | none => (meetingName, description)
  | some key =>
    match lookupTitle key with
    | none => (meetingName, description)
    | some title =>
      (key ++ " - " ++ title,
       "https://mangopay.atlassian.net/browse/" ++ key ++ "\n\n" ++
         description)

/-- A run with a single attendee who is fully free every day, quota 5,
now at the Monday epoch midnight. -/
def freeCfg : Config := ⟨["a"], fun _ => [("a", [])], 0, 5⟩

/-- A run whose primary (and only) attendee has six hours of meetings on
every day, so every weekday is rejected by the 5-hour cap. -/
def overbookedCfg : Config :=
  ⟨["a"], fun _ => [("a", [(Stamp.iso 540, Stamp.iso 900)])], 0, 5⟩

/-- A run whose primary attendee is busy 09:00-15:30 (6.5 hours) while a
second attendee is free. -/
def rejectedDayCfg : Config :=
  ⟨["a", "b"], fun _ => [("a", [(Stamp.iso 540, Stamp.iso 930)]), ("b", [])],
   0, 5⟩

/-- A run whose freebusy response has no entry at all for attendee b. -/
def missingAttendeeCfg : Config := ⟨["a", "b"], fun _ => [("a", [])], 0, 5⟩

/-- A run whose Monday response carries a malformed busy timestamp for the
primary attendee while every other day is fully free, quota 1. -/
def malformedCfg : Config :=
  ⟨["a"],
   fun d => if d = 0 then [("a", [(Stamp.malformed, Stamp.iso 600)])]
            else [("a", [])],
   0, 1⟩

/-- Unfolding equation for one pass of the slot loop. -/
theorem genSlotsAux_succ (busy : List (Int × Int)) (now dayEnd : Int)
    (f : Nat) (cur : Int) :
    genSlotsAux busy now dayEnd (f + 1) cur =
      if cur + 30 ≤ dayEnd then
        if 11 ≤ hourOf cur ∧ hourOf (cur + 30) < 13 then
          genSlotsAux busy now dayEnd f (cur + 30)
        else if cur < now then
          genSlotsAux busy now dayEnd f (cur + 30)
        else if ∀ b ∈ busy, ¬ overlaps (cur, cur + 30) b then
          (cur, cur + 30) :: genSlotsAux busy now dayEnd f (cur + 30)
        else
          genSlotsAux busy now dayEnd f (cur + 30)
      else [] := rfl

/-- Every slot the slot loop emits starts no earlier than the loop cursor,
lasts exactly 30 minutes and ends inside the day window. -/
theorem genSlotsAux_mem (busy : List (Int × Int)) (now dayEnd : Int) :
    ∀ (fuel : Nat) (cur : Int) (s : Int × Int),
      s ∈ genSlotsAux busy now dayEnd fuel cur →
      cur ≤ s.1 ∧ s.2 = s.1 + 30 ∧ s.2 ≤ dayEnd := by
  intro fuel
  induction fuel with
  | zero => intro cur s hs; simp [genSlotsAux] at hs
  | succ f ih =>
    intro cur s hs
    rw [genSlotsAux_succ] at hs
    by_cases hle : cur + 30 ≤ dayEnd
    · rw [if_pos hle] at hs
      by_cases hl : 11 ≤ hourOf cur ∧ hourOf (cur + 30) < 13
      · rw [if_pos hl] at hs
        obtain ⟨h1, h2, h3⟩ := ih _ _ hs
        exact ⟨by omega, h2, h3⟩
      · rw [if_neg hl] at hs
        by_cases hp : cur < now
        · rw [if_pos hp] at hs
          obtain ⟨h1, h2, h3⟩ := ih _ _ hs
          exact ⟨by omega, h2, h3⟩
        · rw [if_neg hp] at hs
          by_cases hf : ∀ b ∈ busy, ¬ overlaps (cur, cur + 30) b
          · rw [if_pos hf] at hs
            rcases List.mem_cons.mp hs with heq | htl
            · subst heq; exact ⟨le_refl _, rfl, hle⟩
            · obtain ⟨h1, h2, h3⟩ := ih _ _ htl
              exact ⟨by omega, h2, h3⟩
          · rw [if_neg hf] at hs
            obtain ⟨h1, h2, h3⟩ := ih _ _ hs
            exact ⟨by omega, h2, h3⟩
    · rw [if_neg hle] at hs
      simp at hs

/-- The slot loop emits slots with strictly increasing start times. -/
theorem genSlotsAux_pairwise (busy : List (Int × Int)) (now dayEnd : Int) :
    ∀ (fuel : Nat) (cur : Int),
      (genSlotsAux busy now dayEnd fuel cur).Pairwise
        (fun a b => a.1 < b.1) := by
  intro fuel
  induction fuel with
  | zero => intro cur; simp [genSlotsAux]
  | succ f ih =>
    intro cur
    rw [genSlotsAux_succ]
    by_cases hle : cur + 30 ≤ dayEnd
    · rw [if_pos hle]
      by_cases hl : 11 ≤ hourOf cur ∧ hourOf (cur + 30) < 13
      · rw [if_pos hl]; exact ih _
      · rw [if_neg hl]
        by_cases hp : cur < now
        · rw [if_pos hp]; exact ih _
        · rw [if_neg hp]
          by_cases hf : ∀ b ∈ busy, ¬ overlaps (cur, cur + 30) b
          · rw [if_pos hf]
            refine List.Pairwise.cons ?_ (ih _)
            intro s hs
            obtain ⟨h1, h2, h3⟩ := genSlotsAux_mem busy now dayEnd _ _ _ hs
            show cur < s.1
            omega
          · rw [if_neg hf]; exact ih _
    · rw [if_neg hle]; exact List.Pairwise.nil

/-- The slot loop over any busy collection equals the unobstructed slot
loop filtered by the freeness test: a candidate slot is appended iff it
overlaps no busy interval. -/
theorem genSlotsAux_filter (busy : List (Int × Int)) (now dayEnd : Int) :
    ∀ (fuel : Nat) (cur : Int),
      genSlotsAux busy now dayEnd fuel cur =
        (genSlotsAux [] now dayEnd fuel cur).filter
          (fun s => decide (∀ b ∈ busy, ¬ overlaps s b)) := by
  intro fuel
  induction fuel with
  | zero => intro cur; simp [genSlotsAux]
  | succ f ih =>
    intro cur
    rw [genSlotsAux_succ, genSlotsAux_succ]
    by_cases hle : cur + 30 ≤ dayEnd
    · rw [if_pos hle, if_pos hle]
      have hnil : ∀ b ∈ ([] : List (Int × Int)), ¬ overlaps (cur, cur + 30) b := by
        simp
      by_cases hl : 11 ≤ hourOf cur ∧ hourOf (cur + 30) < 13
      · rw [if_pos hl, if_pos hl]; exact ih _
      · rw [if_neg hl, if_neg hl]
        by_cases hp : cur < now
        · rw [if_pos hp, if_pos hp]; exact ih _
        · rw [if_neg hp, if_neg hp, if_pos hnil]
          by_cases hf : ∀ b ∈ busy, ¬ overlaps (cur, cur + 30) b
          · rw [if_pos hf, List.filter_cons_of_pos (by simpa using hf)]
            rw [ih _]
          · rw [if_neg hf, List.filter_cons_of_neg (by simpa using hf)]
            exact ih _
    · rw [if_neg hle, if_neg hle]; simp

/-- The past-time filter is inert below the cursor: two reference times
both at or before the cursor generate the same slots. -/
theorem genSlotsAux_now_irrel (busy : List (Int × Int)) (dayEnd : Int) :
    ∀ (fuel : Nat) (now now2 cur : Int), now ≤ cur → now2 ≤ cur →
      genSlotsAux busy now dayEnd fuel cur =
        genSlotsAux busy now2 dayEnd fuel cur := by
  intro fuel
  induction fuel with
  | zero => intros; simp [genSlotsAux]
  | succ f ih =>
    intro now now2 cur h1 h2
    rw [genSlotsAux_succ, genSlotsAux_succ]
    by_cases hle : cur + 30 ≤ dayEnd
    · rw [if_pos hle, if_pos hle]
      by_cases hl : 11 ≤ hourOf cur ∧ hourOf (cur + 30) < 13
      · rw [if_pos hl, if_pos hl]
        exact ih _ _ _ (by omega) (by omega)
      · rw [if_neg hl, if_neg hl, if_neg (by omega : ¬ cur < now),
          if_neg (by omega : ¬ cur < now2)]
        by_cases hf : ∀ b ∈ busy, ¬ overlaps (cur, cur + 30) b
        · rw [if_pos hf, if_pos hf]
          exact congrArg _ (ih now now2 (cur + 30) (by omega) (by omega))
        · rw [if_neg hf, if_neg hf]
          exact ih _ _ _ (by omega) (by omega)
    · rw [if_neg hle, if_neg hle]

/-- Translating the unobstructed slot loop by a whole number of days
translates its output slotwise. -/
theorem genSlotsAux_shift (k : Int) :
    ∀ (fuel : Nat) (now dayEnd cur : Int),
      genSlotsAux [] (now + 1440 * k) (dayEnd + 1440 * k) fuel
          (cur + 1440 * k) =
        (genSlotsAux [] now dayEnd fuel cur).map
          (fun s => (s.1 + 1440 * k, s.2 + 1440 * k)) := by
  intro fuel
  induction fuel with
  | zero => intros; simp [genSlotsAux]
  | succ f ih =>
    intro now dayEnd cur
    have hstep : cur + 1440 * k + 30 = cur + 30 + 1440 * k := by ring
    have hh1 : hourOf (cur + 1440 * k) = hourOf cur := by
      unfold hourOf
      rw [show (cur + 1440 * k) % 1440 = cur % 1440 by omega]
    have hh2 : hourOf (cur + 1440 * k + 30) = hourOf (cur + 30) := by
      unfold hourOf
      rw [show (cur + 1440 * k + 30) % 1440 = (cur + 30) % 1440 by omega]
    rw [genSlotsAux_succ, genSlotsAux_succ, hh1, hh2]
    by_cases hle : cur + 30 ≤ dayEnd
    · rw [if_pos hle, if_pos (show cur + 1440 * k + 30 ≤ dayEnd + 1440 * k by omega)]
      by_cases hl : 11 ≤ hourOf cur ∧ hourOf (cur + 30) < 13
      · rw [if_pos hl, if_pos hl, hstep]
        exact ih _ _ _
      · rw [if_neg hl, if_neg hl]
        by_cases hp : cur < now
        · rw [if_pos hp, if_pos (show cur + 1440 * k < now + 1440 * k by omega),
            hstep]
          exact ih _ _ _
        · rw [if_neg hp, if_neg (show ¬ cur + 1440 * k < now + 1440 * k by omega),
            if_pos (by simp : ∀ b ∈ ([] : List (Int × Int)),
              ¬ overlaps (cur + 1440 * k, cur + 1440 * k + 30) b),
            if_pos (by simp : ∀ b ∈ ([] : List (Int × Int)),
              ¬ overlaps (cur, cur + 30) b)]
          simp only [List.map_cons]
          rw [hstep, ih _ _ _]
    · rw [if_neg hle,
        if_neg (show ¬ cur + 1440 * k + 30 ≤ dayEnd + 1440 * k by omega)]
      simp

/-- Unfolding equation of the day loop with no remaining budget. -/
theorem searchLoop_zero (cfg : Config) (dayOff : Nat)
    (acc : List (Int × Int)) (queried : List Int) :
    searchLoop cfg 0 dayOff acc queried =
      if acc.length < cfg.minSlots then ⟨SearchOutcome.fuelOut, queried⟩
      else ⟨SearchOutcome.found (acc.take cfg.minSlots), queried⟩ := rfl

/-- Unfolding equation for one pass of the day loop. -/
theorem searchLoop_succ (cfg : Config) (fuel dayOff : Nat)
    (acc : List (Int × Int)) (queried : List Int) :
    searchLoop cfg (fuel + 1) dayOff acc queried =
      if acc.length < cfg.minSlots then
        if (cfg.now / 1440 + dayOff) % 7 ∈ weekdaysList then
          match processDay cfg (cfg.now / 1440 + dayOff) with
          | Except.error e =>
            ⟨SearchOutcome.failed e, queried ++ [cfg.now / 1440 + dayOff]⟩
          | Except.ok slots =>
            searchLoop cfg fuel (dayOff + 1) (acc ++ slots)
              (queried ++ [cfg.now / 1440 + dayOff])
        else searchLoop cfg fuel (dayOff + 1) acc queried
      else ⟨SearchOutcome.found (acc.take cfg.minSlots), queried⟩ := rfl

/-- When a day evaluates without error, every slot it contributes lies in
its 09:00-17:00 window, lasts 30 minutes, and the slots are in strictly
increasing start order. -/
theorem processDay_ok (cfg : Config) (day : Int) (slots : List (Int × Int))
    (h : processDay cfg day = Except.ok slots) :
    (∀ s ∈ slots,
      day * 1440 + 540 ≤ s.1 ∧ s.2 = s.1 + 30 ∧ s.2 ≤ day * 1440 + 1020) ∧
    slots.Pairwise (fun a b => a.1 < b.1) := by
  simp only [processDay] at h
  split at h
  · exact Except.noConfusion h
  · split at h
    · exact Except.noConfusion h
    · split at h
      · injection h with h2
        subst h2
        exact ⟨by simp, List.Pairwise.nil⟩
      · split at h
        · exact Except.noConfusion h
        · split at h
          · exact Except.noConfusion h
          · injection h with h2
            subst h2
            constructor
            · intro s hs
              exact genSlotsAux_mem _ _ _ _ _ _ hs
            · exact genSlotsAux_pairwise _ _ _ _ _

/-- Invariant proof for the day loop: starting from an accumulator of
strictly ordered weekday slots that all precede the next day to examine,
every queried day is a weekday and any returned list has exactly
min_slots slots, strictly ordered, all on weekdays. -/
theorem searchLoop_master (cfg : Config) :
    ∀ (fuel dayOff : Nat) (acc : List (Int × Int)) (q : List Int),
      acc.Pairwise (fun a b => a.1 < b.1) →
      (∀ s ∈ acc, s.1 < (cfg.now / 1440 + dayOff) * 1440 + 540) →
      (∀ s ∈ acc, s.1 / 1440 % 7 ∈ weekdaysList) →
      (∀ d ∈ q, d % 7 ∈ weekdaysList) →
      (∀ d ∈ (searchLoop cfg fuel dayOff acc q).queried,
        d % 7 ∈ weekdaysList) ∧
      (∀ slots,
        (searchLoop cfg fuel dayOff acc q).outcome =
          SearchOutcome.found slots →
        slots.length = cfg.minSlots ∧
        slots.Pairwise (fun a b => a.1 < b.1) ∧
        ∀ s ∈ slots, s.1 / 1440 % 7 ∈ weekdaysList) := by
  intro fuel
  induction fuel with
  | zero =>
    intro dayOff acc q hpw hbound hwk hq
    rw [searchLoop_zero]
    by_cases hlen : acc.length < cfg.minSlots
    · rw [if_pos hlen]
      refine ⟨hq, ?_⟩
      intro slots hs
      exact SearchOutcome.noConfusion hs
    · rw [if_neg hlen]
      refine ⟨hq, ?_⟩
      intro slots hs
      injection hs with h2
      subst h2
      refine ⟨?_, ?_, ?_⟩
      · rw [List.length_take]; omega
      · exact List.Pairwise.sublist (List.take_sublist _ _) hpw
      · intro s hs2
        exact hwk s ((List.take_sublist _ _).subset hs2)
  | succ f ih =>
    intro dayOff acc q hpw hbound hwk hq
    rw [searchLoop_succ]
    by_cases hlen : acc.length < cfg.minSlots
    · rw [if_pos hlen]
      by_cases hday : (cfg.now / 1440 + (dayOff : Int)) % 7 ∈ weekdaysList
      · rw [if_pos hday]
        cases hp : processDay cfg (cfg.now / 1440 + dayOff) with
        | error e =>
          refine ⟨?_, ?_⟩
          · intro d hd
            rcases List.mem_append.mp hd with hin | hin
            · exact hq d hin
            · rw [List.mem_singleton.mp hin]
              exact hday
          · intro slots hs
            exact SearchOutcome.noConfusion hs
        | ok ds =>
          obtain ⟨hmem, hpw2⟩ := processDay_ok cfg _ ds hp
          apply ih (dayOff + 1) (acc ++ ds) (q ++ [cfg.now / 1440 + dayOff])
          · rw [List.pairwise_append]
            refine ⟨hpw, hpw2, ?_⟩
            intro a ha b hb
            have h1 := hbound a ha
            have h2 := (hmem b hb).1
            omega
          · intro s hs
            rcases List.mem_append.mp hs with hin | hin
            · have := hbound s hin
              push_cast
              omega
            · obtain ⟨h1, h2, h3⟩ := hmem s hin
              push_cast
              omega
          · intro s hs
            rcases List.mem_append.mp hs with hin | hin
            · exact hwk s hin
            · obtain ⟨h1, h2, h3⟩ := hmem s hin
              have hsdiv : s.1 / 1440 = cfg.now / 1440 + dayOff := by omega
              rw [hsdiv]
              exact hday
          · intro d hd
            rcases List.mem_append.mp hd with hin | hin
            · exact hq d hin
            · rw [List.mem_singleton.mp hin]
              exact hday
      · rw [if_neg hday]
        apply ih (dayOff + 1) acc q hpw ?_ hwk hq
        intro s hs
        have := hbound s hs
        push_cast
        omega
    · rw [if_neg hlen]
      refine ⟨hq, ?_⟩
      intro slots hs
      injection hs with h2
      subst h2
      refine ⟨?_, ?_, ?_⟩
      · rw [List.length_take]; omega
      · exact List.Pairwise.sublist (List.take_sublist _ _) hpw
      · intro s hs2
        exact hwk s ((List.take_sublist _ _).subset hs2)

/-- When the primary attendee of every weekday is over the 5-hour cap,
the day loop never reaches its quota: for every iteration budget it is
still searching, so the unbounded source loop never terminates. -/
theorem searchLoop_stuck (cfg : Config) (h0 : 0 < cfg.minSlots)
    (h : ∀ day : Int, day % 7 ∈ weekdaysList →
      processDay cfg day = Except.ok []) :
    ∀ (fuel dayOff : Nat) (q : List Int),
      (searchLoop cfg fuel dayOff [] q).outcome = SearchOutcome.fuelOut := by
  intro fuel
  induction fuel with
  | zero =>
    intro dayOff q
    rw [searchLoop_zero, if_pos (by simpa using h0)]
  | succ f ih =>
    intro dayOff q
    rw [searchLoop_succ, if_pos (by simpa using h0)]
    by_cases hday : (cfg.now / 1440 + (dayOff : Int)) % 7 ∈ weekdaysList
    · rw [if_pos hday, h _ hday]
      exact ih (dayOff + 1) (q ++ [cfg.now / 1440 + dayOff])
    · rw [if_neg hday]
      exact ih (dayOff + 1) q

/-- C2: corrected. The source loop imposes no maximum lookahead and has no
SearchExhausted failure: when the quota is positive and every weekday's
evaluation contributes zero slots, the day loop never reaches the quota,
so after every finite iteration budget it is still searching — the
unbounded while loop of get_free_slots never terminates on such input. -/
theorem C2_search_never_terminates (cfg : Config) (h0 : 0 < cfg.minSlots)
    (h : ∀ day : Int, day % 7 ∈ weekdaysList →
      processDay cfg day = Except.ok []) (fuel : Nat) :
    (getFreeSlots cfg fuel).outcome = SearchOutcome.fuelOut :=
  searchLoop_stuck cfg h0 h fuel 0 []

/-- C2 witness: with every weekday of the primary attendee over the
5-hour cap, sixty loop iterations still leave the search running. -/
theorem C2_search_never_terminates_witness :
    (getFreeSlots overbookedCfg 60).outcome = SearchOutcome.fuelOut :=
  C2_search_never_terminates overbookedCfg (by decide) (fun _ _ => rfl) 60

/-- C2 counterexample: on a concrete input where no free slot ever
accumulates (the primary attendee is over the cap every day), the search
loop never terminates with a result for any iteration budget, instead of
failing with a SearchExhausted-style error within a bounded lookahead. -/
theorem C2_counterexample :
    ¬ ∃ (fuel : Nat) (slots : List (Int × Int)),
      (getFreeSlots overbookedCfg fuel).outcome =
        SearchOutcome.found slots := by
  rintro ⟨fuel, slots, hc⟩
  have h2 := searchLoop_stuck overbookedCfg (by decide) (fun _ _ => rfl)
    fuel 0 []
  exact SearchOutcome.noConfusion (h2.symm.trans hc)

/-- C3: confirmed. When the parsed busy time of the first (primary)
attendee for the queried day exceeds 5 hours (300 minutes), the day
evaluation returns zero slots whatever the other attendees' entries hold,
and the search loop advances day_offset with its accumulator unchanged. -/
theorem C3_overloaded_day_rejected (cfg : Config) (fuel dayOff : Nat)
    (acc : List (Int × Int)) (q : List Int)
    (firstBusy : List (Stamp × Stamp)) (total : Int)
    (h1 : getCalendarBusy (cfg.busyOf (cfg.now / 1440 + dayOff))
      (cfg.emails.headD "") = Except.ok firstBusy)
    (h2 : totalBusyTime firstBusy = Except.ok total)
    (h3 : 300 < total)
    (hlen : acc.length < cfg.minSlots)
    (hday : (cfg.now / 1440 + dayOff) % 7 ∈ weekdaysList) :
    processDay cfg (cfg.now / 1440 + dayOff) = Except.ok [] ∧
    searchLoop cfg (fuel + 1) dayOff acc q =
      searchLoop cfg fuel (dayOff + 1) acc
        (q ++ [cfg.now / 1440 + dayOff]) := by
  have hpd : processDay cfg (cfg.now / 1440 + dayOff) = Except.ok [] := by
    simp only [processDay, h1, h2]
    rw [if_pos h3]
  refine ⟨hpd, ?_⟩
  rw [searchLoop_succ, if_pos hlen, if_pos hday, hpd]
  simp

/-- C3 witness: the primary attendee busy 09:00-15:30 on the Monday epoch
day rejects it: zero slots and the loop moves to the next day. -/
theorem C3_overloaded_day_rejected_witness :
    processDay rejectedDayCfg 0 = Except.ok [] ∧
    searchLoop rejectedDayCfg 1 0 [] [] =
      searchLoop rejectedDayCfg 0 1 [] [0] :=
  C3_overloaded_day_rejected rejectedDayCfg 0 0 [] []
    [(Stamp.iso 540, Stamp.iso 930)] 390 rfl rfl (by decide) (by decide)
    (by decide)

/-- C8 counterexample: with attendee b having no entry in the day's
calendars map, the day evaluation raises KeyError instead of treating b
as fully free with no error. -/
theorem C8_counterexample :
    processDay missingAttendeeCfg 0 =
      Except.error (CalError.missingAttendee "b") := rfl

/-- C8: corrected. An attendee present in the calendars map with an empty
busy list is treated as fully free: its lookup succeeds with no
intervals, and the combined busy collection is unchanged when that
attendee is dropped from the email list; an attendee entirely absent from
the map instead makes the evaluation raise KeyError. -/
theorem C8_empty_busy_attendee_free
    (cals : List (String × List (Stamp × Stamp))) (es : List String)
    (a : String) (h : cals.lookup a = some []) :
    getCalendarBusy cals a = Except.ok [] ∧
    collectBusy cals es = collectBusy cals (es.erase a) := by
  have hga : getCalendarBusy cals a = Except.ok [] := by
    simp only [getCalendarBusy, h]
  refine ⟨hga, ?_⟩
  induction es with
  | nil => rfl
  | cons e rest ih =>
    by_cases he : e = a
    · subst he
      rw [List.erase_cons_head]
      show collectBusy cals (e :: rest) = collectBusy cals rest
      simp only [collectBusy, hga]
      cases hr : collectBusy cals rest with
      | error er => rfl
      | ok r => simp
    · rw [List.erase_cons_tail (by simpa using he)]
      simp only [collectBusy]
      cases hg : getCalendarBusy cals e with
      | error er => rfl
      | ok b => rw [ih]

/-- C8 witness: attendee a with an empty busy list contributes nothing to
the merged busy collection and raises no error. -/
theorem C8_empty_busy_attendee_free_witness :
    getCalendarBusy [("a", []), ("b", [(Stamp.iso 540, Stamp.iso 600)])] "a"
      = Except.ok [] ∧
    collectBusy [("a", []), ("b", [(Stamp.iso 540, Stamp.iso 600)])]
        ["b", "a"] =
      collectBusy [("a", []), ("b", [(Stamp.iso 540, Stamp.iso 600)])]
        ["b"] :=
  C8_empty_busy_attendee_free _ ["b", "a"] "a" rfl

/-- C9 counterexample: a malformed busy timestamp on the first queried day
makes the whole search fail with ValueError, even though the following
day evaluates to thirteen free slots: the loop does not treat the
malformed day as zero slots and advance. -/
theorem C9_counterexample :
    searchLoop malformedCfg 10 0 [] [] =
      ⟨SearchOutcome.failed CalError.malformedStamp, [0]⟩ ∧
    processDay malformedCfg 1 =
      Except.ok [(1980, 2010), (2010, 2040), (2040, 2070), (2070, 2100),
        (2190, 2220), (2220, 2250), (2250, 2280), (2280, 2310), (2310, 2340),
        (2340, 2370), (2370, 2400), (2400, 2430), (2430, 2460)] :=
  ⟨rfl, rfl⟩

/-- C9: corrected. A weekday whose evaluation raises an error — such as
ValueError from a malformed busy timestamp — aborts the entire search at
once: the loop returns the failure and does not advance to later days. -/
theorem C9_malformed_day_aborts_search (cfg : Config) (fuel dayOff : Nat)
    (acc : List (Int × Int)) (q : List Int) (e : CalError)
    (hlen : acc.length < cfg.minSlots)
    (hday : (cfg.now / 1440 + dayOff) % 7 ∈ weekdaysList)
    (hp : processDay cfg (cfg.now / 1440 + dayOff) = Except.error e) :
    searchLoop cfg (fuel + 1) dayOff acc q =
      ⟨SearchOutcome.failed e, q ++ [cfg.now / 1440 + dayOff]⟩ := by
  rw [searchLoop_succ, if_pos hlen, if_pos hday, hp]

/-- C9 witness: the malformed Monday aborts a five-iteration run at day
zero. -/
theorem C9_malformed_day_aborts_search_witness :
    searchLoop malformedCfg 5 0 [] [] =
      ⟨SearchOutcome.failed CalError.malformedStamp, [0]⟩ :=
  C9_malformed_day_aborts_search malformedCfg 4 0 [] []
    CalError.malformedStamp (by decide) (by decide) rfl

/-- C4: confirmed. The slot loop over any merged busy collection equals
the unobstructed candidate sequence filtered by the freeness test, so a
candidate slot is appended iff it overlaps none of the busy intervals;
overlap is exactly slot_start < busy_end and busy_start < slot_end, and
intervals that merely touch at an endpoint never block a slot. -/
theorem C4_slot_admission (busy : List (Int × Int)) (now dayEnd cur : Int) :
    genSlots busy now dayEnd cur =
      (genSlots [] now dayEnd cur).filter
        (fun s => decide (∀ b ∈ busy, ¬ overlaps s b)) ∧
    (∀ a b : Int × Int, overlaps a b ↔ a.1 < b.2 ∧ b.1 < a.2) ∧
    (∀ s b : Int × Int, b.2 = s.1 ∨ s.2 = b.1 → ¬ overlaps s b) := by
  refine ⟨genSlotsAux_filter busy now dayEnd _ cur, fun a b => Iff.rfl, ?_⟩
  rintro s b (hb | hb) ⟨hov1, hov2⟩ <;> omega

/-- C4 witness: one busy interval 10:00-11:00 filters the free day's
candidates, and the interval ending exactly at a slot start does not
overlap it. -/
theorem C4_slot_admission_witness :
    genSlots [(600, 660)] 0 1020 540 =
      (genSlots [] 0 1020 540).filter
        (fun s => decide (∀ b ∈ [((600:Int), (660:Int))], ¬ overlaps s b)) ∧
    ¬ overlaps (660, 690) (600, 660) :=
  ⟨(C4_slot_admission [(600, 660)] 0 1020 540).1,
   (C4_slot_admission [(600, 660)] 0 1020 540).2.2 (660, 690) (600, 660)
     (Or.inl rfl)⟩

/-- C5: confirmed. In every run of the day loop from its entry point, a
freebusy query is issued only for weekday dates, and every slot of a
returned result falls on a weekday. -/
theorem C5_weekends_never_queried (cfg : Config) (fuel : Nat) :
    (∀ d ∈ (getFreeSlots cfg fuel).queried, d % 7 ∈ weekdaysList) ∧
    (∀ slots, (getFreeSlots cfg fuel).outcome = SearchOutcome.found slots →
      ∀ s ∈ slots, s.1 / 1440 % 7 ∈ weekdaysList) := by
  have h := searchLoop_master cfg fuel 0 [] [] List.Pairwise.nil
    (by simp) (by simp) (by simp)
  exact ⟨h.1, fun slots hs => (h.2 slots hs).2.2⟩

/-- C5 witness: the five slots returned for a fully free calendar all lie
on the Monday epoch day. -/
theorem C5_weekends_never_queried_witness :
    ∀ s ∈ [((540:Int), (570:Int)), (570, 600), (600, 630), (630, 660),
      (750, 780)], s.1 / 1440 % 7 ∈ weekdaysList :=
  (C5_weekends_never_queried freeCfg 1).2
    [(540, 570), (570, 600), (600, 630), (630, 660), (750, 780)] (by decide)

/-- C6: confirmed. Every returned free-slot list holds at most min_slots
slots and is in strictly increasing chronological order of start time. -/
theorem C6_result_sorted_and_capped (cfg : Config) (fuel : Nat)
    (slots : List (Int × Int))
    (h : (getFreeSlots cfg fuel).outcome = SearchOutcome.found slots) :
    slots.length ≤ cfg.minSlots ∧
    slots.Pairwise (fun a b => a.1 < b.1) := by
  have hm := (searchLoop_master cfg fuel 0 [] [] List.Pairwise.nil
    (by simp) (by simp) (by simp)).2 slots h
  exact ⟨le_of_eq hm.1, hm.2.1⟩

/-- C6 witness: the fully free run returns five strictly increasing
slots. -/
theorem C6_result_sorted_and_capped_witness :
    ([((540:Int), (570:Int)), (570, 600), (600, 630), (630, 660),
      (750, 780)]).length ≤ freeCfg.minSlots ∧
    ([((540:Int), (570:Int)), (570, 600), (600, 630), (630, 660),
      (750, 780)]).Pairwise (fun a b => a.1 < b.1) :=
  C6_result_sorted_and_capped freeCfg 1 _ (by decide)

/-- C10: confirmed. A normal return of get_free_slots carries exactly
min_slots slots: the loop exits only once the accumulator reaches the
quota and then truncates to it, so with a positive quota (the caller's
default 5) an empty result is impossible and the caller's no-free-slots
branch is unreachable on normal return. -/
theorem C10_result_exactly_quota (cfg : Config) (fuel : Nat)
    (slots : List (Int × Int))
    (h : (getFreeSlots cfg fuel).outcome = SearchOutcome.found slots) :
    slots.length = cfg.minSlots ∧ (1 ≤ cfg.minSlots → slots ≠ []) := by
  have hm := (searchLoop_master cfg fuel 0 [] [] List.Pairwise.nil
    (by simp) (by simp) (by simp)).2 slots h
  refine ⟨hm.1, fun hq hnil => ?_⟩
  have hlen := hm.1
  rw [hnil] at hlen
  simp at hlen
  omega

/-- C10 witness: the fully free run returns exactly its quota of five
slots, a nonempty list. -/
theorem C10_result_exactly_quota_witness :
    ([((540:Int), (570:Int)), (570, 600), (600, 630), (630, 660),
      (750, 780)]).length = freeCfg.minSlots ∧
    (1 ≤ freeCfg.minSlots →
      [((540:Int), (570:Int)), (570, 600), (600, 630), (630, 660),
        (750, 780)] ≠ []) :=
  C10_result_exactly_quota freeCfg 1 _ (by decide)

/-- C7: confirmed. When the meeting title starts with a ticket key and the
ticket lookup returns a summary, the booked title becomes KEY - summary
and the description is prefixed with the browse deep link; when the
lookup returns nothing, the original title and description are kept and
the booking pair is still produced — the failure is non-fatal. -/
theorem C7_jira_title_resolution (lookupTitle : String → Option String)
    (name key summary : String) (hk : extractJiraKeyS name = some key) :
    (lookupTitle key = some summary →
      resolveBooking lookupTitle name =
        (key ++ " - " ++ summary,
         "https://mangopay.atlassian.net/browse/" ++ key ++ "\n\n" ++
           ("Meeting: " ++ name))) ∧
    (lookupTitle key = none →
      resolveBooking lookupTitle name = (name, "Meeting: " ++ name)) := by
  constructor <;> intro h <;> simp only [resolveBooking, hk, h]

/-- C7 witness: the scenario with title ABC-42 kickoff and summary
Kickoff meeting resolves to the combined title and deep-linked
description. -/
theorem C7_jira_title_resolution_witness :
    resolveBooking
        (fun k => if k = "ABC-42" then some "Kickoff meeting" else none)
        "ABC-42 kickoff" =
      ("ABC-42 - Kickoff meeting",
       "https://mangopay.atlassian.net/browse/ABC-42\n\nMeeting: ABC-42 kickoff") :=
  (C7_jira_title_resolution _ "ABC-42 kickoff" "ABC-42" "Kickoff meeting"
    (by decide)).1 (by decide)

/-- Concrete evaluation of the slot loop on an unobstructed base day with
the reference time at its start: thirteen slots, including 12:30-13:00. -/
theorem genSlotsAux_free_base :
    genSlotsAux [] 540 1020 480 540 =
      [(540, 570), (570, 600), (600, 630), (630, 660), (750, 780),
       (780, 810), (810, 840), (840, 870), (870, 900), (900, 930),
       (930, 960), (960, 990), (990, 1020)] := by decide

/-- C1 counterexample: on the Tuesday after the epoch with window
09:00-17:00, no busy intervals and now at that day's midnight, the
generator emits 13 candidate slots, not 12 — the 12:30-13:00 slot escapes
the lunch exclusion because its end hour is exactly 13. -/
theorem C1_counterexample :
    (genSlots [] 1440 2460 1980).length = 13 ∧
    (2190, 2220) ∈ genSlots [] 1440 2460 1980 := by decide

set_option maxHeartbeats 1000000 in
/-- C1: corrected. For a day window 09:00-17:00 with no busy intervals and
now at or before 09:00 of the day, the generator emits exactly 13 free
slots: four tiling 09:00-11:00, the boundary slot 12:30-13:00, and eight
tiling 13:00-17:00; and a candidate slot of the tiling is emitted iff the
lunch rule does not hold of it, that is, iff not (its start hour is at
least 11 and its end hour is below 13) — a rule that keeps 12:30-13:00. -/
theorem C1_free_day_slots (d now : Int) (h : now ≤ d * 1440 + 540) :
    genSlots [] now (d * 1440 + 1020) (d * 1440 + 540) =
      [(d * 1440 + 540, d * 1440 + 570), (d * 1440 + 570, d * 1440 + 600),
       (d * 1440 + 600, d * 1440 + 630), (d * 1440 + 630, d * 1440 + 660),
       (d * 1440 + 750, d * 1440 + 780), (d * 1440 + 780, d * 1440 + 810),
       (d * 1440 + 810, d * 1440 + 840), (d * 1440 + 840, d * 1440 + 870),
       (d * 1440 + 870, d * 1440 + 900), (d * 1440 + 900, d * 1440 + 930),
       (d * 1440 + 930, d * 1440 + 960), (d * 1440 + 960, d * 1440 + 990),
       (d * 1440 + 990, d * 1440 + 1020)] ∧
    (∀ m : Int, 540 ≤ m → m + 30 ≤ 1020 → m % 30 = 0 →
      ((d * 1440 + m, d * 1440 + m + 30) ∈
          genSlots [] now (d * 1440 + 1020) (d * 1440 + 540) ↔
        ¬ (11 ≤ hourOf (d * 1440 + m) ∧
           hourOf (d * 1440 + m + 30) < 13))) := by
  have hmain : genSlots [] now (d * 1440 + 1020) (d * 1440 + 540) =
      [(d * 1440 + 540, d * 1440 + 570), (d * 1440 + 570, d * 1440 + 600),
       (d * 1440 + 600, d * 1440 + 630), (d * 1440 + 630, d * 1440 + 660),
       (d * 1440 + 750, d * 1440 + 780), (d * 1440 + 780, d * 1440 + 810),
       (d * 1440 + 810, d * 1440 + 840), (d * 1440 + 840, d * 1440 + 870),
       (d * 1440 + 870, d * 1440 + 900), (d * 1440 + 900, d * 1440 + 930),
       (d * 1440 + 930, d * 1440 + 960), (d * 1440 + 960, d * 1440 + 990),
       (d * 1440 + 990, d * 1440 + 1020)] := by
    unfold genSlots
    rw [show (d * 1440 + 1020 - (d * 1440 + 540)).toNat = 480 by omega]
    rw [genSlotsAux_now_irrel [] (d * 1440 + 1020) 480 now (d * 1440 + 540)
      (d * 1440 + 540) h le_rfl]
    rw [show d * 1440 + 540 = 540 + 1440 * d by ring,
      show d * 1440 + 1020 = 1020 + 1440 * d by ring]
    rw [genSlotsAux_shift d 480 540 1020 540, genSlotsAux_free_base]
    simp only [List.map_cons, List.map_nil, List.cons.injEq,
      Prod.mk.injEq, and_true, true_and]
    omega
  refine ⟨hmain, ?_⟩
  intro m hm1 hm2 hm3
  rw [hmain]
  have hh1 : hourOf (d * 1440 + m) = m / 60 := by unfold hourOf; omega
  have hh2 : hourOf (d * 1440 + m + 30) = (m + 30) / 60 := by
    unfold hourOf; omega
  rw [hh1, hh2]
  simp only [List.mem_cons, List.not_mem_nil, or_false, Prod.mk.injEq]
  have hcases : m = 540 ∨ m = 570 ∨ m = 600 ∨ m = 630 ∨ m = 660 ∨ m = 690 ∨
      m = 720 ∨ m = 750 ∨ m = 780 ∨ m = 810 ∨ m = 840 ∨ m = 870 ∨ m = 900 ∨
      m = 930 ∨ m = 960 ∨ m = 990 := by omega
  rcases hcases with rfl | rfl | rfl | rfl | rfl | rfl | rfl | rfl | rfl |
    rfl | rfl | rfl | rfl | rfl | rfl | rfl <;> norm_num <;> omega

/-- C1 witness: the free Tuesday with now at its midnight yields the
explicit 13-slot list. -/
theorem C1_free_day_slots_witness :
    genSlots [] 1440 (1 * 1440 + 1020) (1 * 1440 + 540) =
      [(1 * 1440 + 540, 1 * 1440 + 570), (1 * 1440 + 570, 1 * 1440 + 600),
       (1 * 1440 + 600, 1 * 1440 + 630), (1 * 1440 + 630, 1 * 1440 + 660),
       (1 * 1440 + 750, 1 * 1440 + 780), (1 * 1440 + 780, 1 * 1440 + 810),
       (1 * 1440 + 810, 1 * 1440 + 840), (1 * 1440 + 840, 1 * 1440 + 870),
       (1 * 1440 + 870, 1 * 1440 + 900), (1 * 1440 + 900, 1 * 1440 + 930),
       (1 * 1440 + 930, 1 * 1440 + 960), (1 * 1440 + 960, 1 * 1440 + 990),
       (1 * 1440 + 990, 1 * 1440 + 1020)] :=
  (C1_free_day_slots 1 1440 (by decide)).1
